import Mathlib

/-!
Shallow embedding of the kraken scheduler event engine
(`client/torrent/scheduler/events.go`) together with the collaborators the
events act on.

The event `Apply` bodies are translated directly from `events.go`.
Collaborators whose Go source lies outside the embedded file (`ConnState`,
`AnnounceQueue`, `newTorrentControl`, the dispatcher factory and
`timeutil.MostRecent`) are modelled from the specification, and every such
definition carries a doc comment saying so.

Representation choices: Go maps become association lists over `Nat` keys,
`time.Time`/`time.Duration` become `Int`, one-shot error channels become
sink identifiers (`Nat`), and a goroutine spawn or channel send performed by
an `Apply` body becomes an explicit effect value returned next to the new
scheduler state (a list of dials, a list of sinks that received success, a
list of conns that were closed, or a flag recording that a blacklist error
was logged).
-/

/-- Scheduler configuration: the fields read by the embedded events. -/
structure Config where
  MaxConnsPerTorrent : Nat
  BlacklistDuration : Int
  IdleConnTTL : Int
  ConnTTL : Int
  IdleSeederTTL : Int
deriving DecidableEq, Repr

/-- A live peer connection.  `LastGoodPieceReceived` and `LastPieceSent` are
snapshots of the corresponding Go getters. -/
structure Conn where
  PeerID : Nat
  InfoHash : Nat
  CreatedAt : Int
  LastGoodPieceReceived : Int
  LastPieceSent : Int
deriving DecidableEq, Repr

/-- A torrent, reduced to the identity the scheduler reads (`InfoHash()`). -/
structure Torrent where
  InfoHash : Nat
deriving DecidableEq, Repr

/-- A per-torrent dispatcher as the scheduler sees it: an identity used by
the announce queue, its torrent, and the fields read by the preemption tick
(`CreatedAt`, `LastConnRemoved()`, `Empty()`). -/
structure Dispatcher where
  id : Nat
  Torrent : Torrent
  CreatedAt : Int
  LastConnRemoved : Int
  Empty : Bool
deriving DecidableEq, Repr

/-- Tracker-returned peer info.  `PeerID = none` models a peer-id string on
which `torlib.NewPeerID` fails to parse. -/
structure PeerInfo where
  PeerID : Option Nat
  IP : Nat
  Port : Nat
deriving DecidableEq, Repr

/-- An outgoing-connection task spawned by `go s.initOutgoingConn(...)`. -/
structure Dial where
  peerID : Nat
  ip : Nat
  port : Nat
  torrent : Torrent
deriving DecidableEq, Repr

/-- The admission errors `ConnState.AddPending` can return; `atCapacity`
stands for `errTorrentAtCapacity`. -/
inductive AddPendingErr where
  | atCapacity
  | alreadyPending
  | alreadyActive
  | blacklisted
deriving DecidableEq, Repr

/-- Read of a Go map represented as an association list. -/
def alookup {α : Type} : List (Nat × α) → Nat → Option α
  | [], _ => none
  | (k, v) :: rest, h => if k = h then some v else alookup rest h

/-- Write through to the first binding of a key, when present: the shape of
a Go write (or mutation through a pointer held in the map) to an existing
key. -/
def amodify {α : Type} (f : α → α) : List (Nat × α) → Nat → List (Nat × α)
  | [], _ => []
  | (k, v) :: rest, h =>
    if k = h then (k, f v) :: rest else (k, v) :: amodify f rest h

/-- Modelled from the spec: connection bookkeeping (`ConnState`), whose Go
source is not part of the embedded file.  Pending and blacklisted entries
are keyed by `(PeerID, InfoHash)` pairs, the active set holds conns, and
`capacity` counts the remaining connection slots per torrent. -/
structure ConnState where
  pending : List (Nat × Nat)
  active : List Conn
  blacklist : List ((Nat × Nat) × Int)
  capacity : List (Nat × Nat)
deriving DecidableEq, Repr

/-- Modelled from the spec: a pair is blacklisted while an entry with a
strictly later expiry is present. -/
def ConnState.blacklisted (cs : ConnState) (pid h : Nat) (now : Int) : Prop :=
  ∃ e ∈ cs.blacklist, e.1 = (pid, h) ∧ now < e.2

instance (cs : ConnState) (pid h : Nat) (now : Int) :
    Decidable (cs.blacklisted pid h now) :=
  List.decidableBEx _ cs.blacklist

/-- Modelled from the spec: `AddPending` fails when the pair is already
pending, already active or blacklisted, or when the torrent has no capacity
left (an absent capacity key reads as 0, like a Go map); otherwise it
records the pending pair and consumes one capacity unit. -/
def ConnState.AddPending (cs : ConnState) (pid h : Nat) (now : Int) :
    Except AddPendingErr ConnState :=
  if (pid, h) ∈ cs.pending then .error .alreadyPending
  else if ∃ c ∈ cs.active, c.PeerID = pid ∧ c.InfoHash = h then .error .alreadyActive
  else if cs.blacklisted pid h now then .error .blacklisted
  else
    match alookup cs.capacity h with
    | some (n + 1) =>
      .ok { cs with pending := (pid, h) :: cs.pending,
                    capacity := amodify (fun _ => n) cs.capacity h }
    | _ => .error .atCapacity

/-- Modelled from the spec: remove the conn from the active set and release
one capacity unit; a no-op when the conn is not active. -/
def ConnState.DeleteActive (cs : ConnState) (c : Conn) : ConnState :=
  if c ∈ cs.active then
    { cs with active := cs.active.erase c,
              capacity := amodify (fun n => n + 1) cs.capacity c.InfoHash }
  else cs

/-- Modelled from the spec: refresh the blacklist entry for the pair with
expiry `now + BlacklistDuration`; returns an error (and inserts nothing)
iff the pair is still pending or active at call time. -/
def ConnState.Blacklist (cs : ConnState) (pid h : Nat) (now dur : Int) :
    Except Unit ConnState :=
  if (pid, h) ∈ cs.pending ∨ ∃ c ∈ cs.active, c.PeerID = pid ∧ c.InfoHash = h then
    .error ()
  else
    .ok { cs with blacklist :=
      ((pid, h), now + dur) :: cs.blacklist.filter (fun e => decide (e.1 ≠ (pid, h))) }

/-- Modelled from the spec: set `capacity[h] := MaxConnsPerTorrent` the
first time `h` is seen; idempotent. -/
def ConnState.InitCapacity (cs : ConnState) (h maxConns : Nat) : ConnState :=
  match alookup cs.capacity h with
  | some _ => cs
  | none => { cs with capacity := (h, maxConns) :: cs.capacity }

/-- Modelled from the spec: snapshot of the active conns. -/
def ConnState.ActiveConns (cs : ConnState) : List Conn :=
  cs.active

/-- Modelled from the spec: the announce queue over dispatcher identities,
with ready (queued), in-flight and removed entries. -/
structure AnnounceQueue where
  queue : List Nat
  inFlight : List Nat
  removed : List Nat
deriving DecidableEq, Repr

/-- Modelled from the spec: admit a new dispatcher at the tail. -/
def AnnounceQueue.Add (q : AnnounceQueue) (d : Nat) : AnnounceQueue :=
  { q with queue := q.queue ++ [d] }

/-- Modelled from the spec: pop the next ready dispatcher and mark it
in-flight; `none` when the queue is empty. -/
def AnnounceQueue.Next (q : AnnounceQueue) : AnnounceQueue × Option Nat :=
  match q.queue with
  | [] => (q, none)
  | d :: rest => ({ q with queue := rest, inFlight := d :: q.inFlight }, some d)

/-- Modelled from the spec: re-admit an in-flight dispatcher at the tail; a
no-op on a removed entry. -/
def AnnounceQueue.Ready (q : AnnounceQueue) (d : Nat) : AnnounceQueue :=
  if d ∈ q.removed then q
  else { q with inFlight := q.inFlight.erase d, queue := q.queue ++ [d] }

/-- Modelled from the spec: permanently remove an entry; later `Ready`
calls for it are ignored. -/
def AnnounceQueue.Done (q : AnnounceQueue) (d : Nat) : AnnounceQueue :=
  { q with queue := q.queue.erase d, inFlight := q.inFlight.erase d,
           removed := d :: q.removed }

/-- Per-torrent control record: dispatcher, completion waiters (one-shot
error sinks, modelled by identifiers) and the completion flag. -/
structure TorrentControl where
  Dispatcher : Dispatcher
  Errors : List Nat
  Complete : Bool
deriving DecidableEq, Repr

/-- Modelled from the spec: `newTorrentControl` builds a control with no
waiters and `Complete = false`. -/
def newTorrentControl (d : Dispatcher) : TorrentControl :=
  { Dispatcher := d, Errors := [], Complete := false }

/-- The scheduler state the events mutate.  `clockNow` is the value of
`s.clock.Now()` during the event, and `nextDispatcherID` feeds the modelled
dispatcher factory. -/
structure Scheduler where
  peerID : Nat
  config : Config
  clockNow : Int
  connState : ConnState
  announceQueue : AnnounceQueue
  torrentControls : List (Nat × TorrentControl)
  nextDispatcherID : Nat
deriving DecidableEq, Repr

/-- Modelled from the spec: `s.dispatcherFactory.New(torrent)` yields a
fresh, empty dispatcher for the torrent. -/
def Scheduler.newDispatcher (s : Scheduler) (t : Torrent) : Dispatcher :=
  { id := s.nextDispatcherID, Torrent := t, CreatedAt := s.clockNow,
    LastConnRemoved := s.clockNow, Empty := true }

/-- Modelled from the spec: `timeutil.MostRecent` over two timestamps. -/
def MostRecent2 (a b : Int) : Int :=
  max a b

/-- Modelled from the spec: `timeutil.MostRecent` over three timestamps. -/
def MostRecent3 (a b c : Int) : Int :=
  max a (max b c)

/-- `closedConnEvent` of events.go. -/
structure closedConnEvent where
  conn : Conn
deriving DecidableEq, Repr

/-- Translation of `closedConnEvent.Apply`: delete the conn from the active
set, then blacklist the pair; an error from `Blacklist` is only logged,
which the Bool effect records. -/
def closedConnEvent.Apply (e : closedConnEvent) (s : Scheduler) :
    Scheduler × Bool :=
  let cs := s.connState.DeleteActive e.conn
  match cs.Blacklist e.conn.PeerID e.conn.InfoHash s.clockNow s.config.BlacklistDuration with
  | .ok cs2 => ({ s with connState := cs2 }, false)
  | .error _ => ({ s with connState := cs }, true)

/-- `announceResponseEvent` of events.go. -/
structure announceResponseEvent where
  infoHash : Nat
  peers : List PeerInfo
deriving DecidableEq, Repr

/-- Translation of the peer loop of `announceResponseEvent.Apply`: walk the
peers in order, skipping unparseable ids and our own peer id; `AddPending`
ends the whole loop on `atCapacity`, skips the peer on any other error, and
on success records a spawned outgoing dial. -/
def announceResponsePeerLoop (s : Scheduler) (h : Nat) (d : Dispatcher) :
    List PeerInfo → Scheduler × List Dial
  | [] => (s, [])
  | p :: rest =>
    match p.PeerID with
    | none => announceResponsePeerLoop s h d rest
    | some pid =>
      if pid = s.peerID then announceResponsePeerLoop s h d rest
      else
        match s.connState.AddPending pid h s.clockNow with
        | .error .atCapacity => (s, [])
        | .error _ => announceResponsePeerLoop s h d rest
        | .ok cs =>
          let r := announceResponsePeerLoop { s with connState := cs } h d rest
          (r.1, { peerID := pid, ip := p.IP, port := p.Port, torrent := d.Torrent } :: r.2)

/-- Translation of `announceResponseEvent.Apply`: when no control exists for
the info hash the event only logs and returns; otherwise the dispatcher is
re-admitted to the announce queue and the peer loop runs. -/
def announceResponseEvent.Apply (e : announceResponseEvent) (s : Scheduler) :
    Scheduler × List Dial :=
  match alookup s.torrentControls e.infoHash with
  | none => (s, [])
  | some ctrl =>
    announceResponsePeerLoop
      { s with announceQueue := s.announceQueue.Ready ctrl.Dispatcher.id }
      e.infoHash ctrl.Dispatcher e.peers

/-- `newTorrentEvent` of events.go; `errc` is the one-shot error sink. -/
structure newTorrentEvent where
  torrent : Torrent
  errc : Nat
deriving DecidableEq, Repr

/-- The tail of `newTorrentEvent.Apply`, shared by the fresh-control and
existing-control paths: an already complete control resolves the sink
immediately, otherwise the sink is appended to the stored control's
`Errors`. -/
def newTorrentApplyTail (s : Scheduler) (h : Nat) (ctrl : TorrentControl)
    (errc : Nat) : Scheduler × List Nat :=
  if ctrl.Complete then (s, [errc])
  else
    let tcs := amodify (fun c => { c with Errors := c.Errors ++ [errc] })
      s.torrentControls h
    ({ s with torrentControls := tcs }, [])

/-- Translation of `newTorrentEvent.Apply`: when the info hash is unknown a
fresh control is built from the dispatcher factory, inserted, its
dispatcher queued for announcing and capacity initialized; then the shared
tail resolves or registers the sink. -/
def newTorrentEvent.Apply (e : newTorrentEvent) (s : Scheduler) :
    Scheduler × List Nat :=
  let infoHash := e.torrent.InfoHash
  match alookup s.torrentControls infoHash with
  | some ctrl => newTorrentApplyTail s infoHash ctrl e.errc
  | none =>
    let d := s.newDispatcher e.torrent
    let ctrl := newTorrentControl d
    let s2 := { s with
      torrentControls := (infoHash, ctrl) :: s.torrentControls,
      announceQueue := s.announceQueue.Add d.id,
      connState := s.connState.InitCapacity infoHash s.config.MaxConnsPerTorrent,
      nextDispatcherID := s.nextDispatcherID + 1 }
    newTorrentApplyTail s2 infoHash ctrl e.errc

/-- `completedDispatcherEvent` of events.go. -/
structure completedDispatcherEvent where
  dispatcher : Dispatcher
deriving DecidableEq, Repr

/-- Translation of `completedDispatcherEvent.Apply`: the dispatcher is
always `Done`-d in the announce queue; when its control exists, every sink
in `Errors` receives success (the returned list) and `Complete` is set. -/
def completedDispatcherEvent.Apply (e : completedDispatcherEvent)
    (s : Scheduler) : Scheduler × List Nat :=
  let s1 := { s with announceQueue := s.announceQueue.Done e.dispatcher.id }
  match alookup s1.torrentControls e.dispatcher.Torrent.InfoHash with
  | none => (s1, [])
  | some ctrl =>
    let tcs := amodify (fun c => { c with Complete := true })
      s1.torrentControls e.dispatcher.Torrent.InfoHash
    ({ s1 with torrentControls := tcs }, ctrl.Errors)

/-- `preemptionTickEvent` of events.go. -/
structure preemptionTickEvent where
deriving DecidableEq, Repr

/-- Translation of the first pass of `preemptionTickEvent.Apply`: collect
the active conns that get closed, mirroring the idle check followed by the
absolute-age check. -/
def preemptConns (s : Scheduler) : List Conn → List Conn
  | [] => []
  | c :: rest =>
    if s.clockNow - MostRecent3 c.CreatedAt c.LastGoodPieceReceived c.LastPieceSent
        > s.config.IdleConnTTL then
      c :: preemptConns s rest
    else if s.clockNow - c.CreatedAt > s.config.ConnTTL then
      c :: preemptConns s rest
    else
      preemptConns s rest

/-- Translation of the second pass of `preemptionTickEvent.Apply`: drop the
controls that are complete, whose dispatcher is empty and whose idle time
exceeds `IdleSeederTTL`. -/
def preemptControls (s : Scheduler) :
    List (Nat × TorrentControl) → List (Nat × TorrentControl)
  | [] => []
  | (h, ctrl) :: rest =>
    if ctrl.Complete && ctrl.Dispatcher.Empty then
      if s.clockNow - MostRecent2 ctrl.Dispatcher.CreatedAt ctrl.Dispatcher.LastConnRemoved
          > s.config.IdleSeederTTL then
        preemptControls s rest
      else
        (h, ctrl) :: preemptControls s rest
    else
      (h, ctrl) :: preemptControls s rest

/-- Translation of `preemptionTickEvent.Apply`: the closed conns are the
effect (their state cleanup happens via later `closedConn` events), and the
idle complete controls are dropped from `torrentControls`. -/
def preemptionTickEvent.Apply (e : preemptionTickEvent) (s : Scheduler) :
    Scheduler × List Conn :=
  let closed := preemptConns s s.connState.ActiveConns
  ({ s with torrentControls := preemptControls s s.torrentControls }, closed)

/-- A small configuration used by the concrete witness states. -/
def cfg0 : Config :=
  { MaxConnsPerTorrent := 2, BlacklistDuration := 10, IdleConnTTL := 5,
    ConnTTL := 9, IdleSeederTTL := 7 }

/-- Connection state with nothing tracked yet. -/
def csEmpty : ConnState :=
  { pending := [], active := [], blacklist := [], capacity := [] }

/-- A scheduler whose torrent-control table is empty while a dispatcher
(id 0) is still in flight in the announce queue. -/
def sAbsent : Scheduler :=
  { peerID := 0, config := cfg0, clockNow := 0, connState := csEmpty,
    announceQueue := { queue := [], inFlight := [0], removed := [] },
    torrentControls := [], nextDispatcherID := 1 }

/-- A dispatcher for the torrent with info hash 3. -/
def d3 : Dispatcher :=
  { id := 0, Torrent := { InfoHash := 3 }, CreatedAt := 0,
    LastConnRemoved := 0, Empty := true }

/-- A scheduler downloading torrent 3 with two completion waiters. -/
def s3 : Scheduler :=
  { peerID := 0, config := cfg0, clockNow := 0, connState := csEmpty,
    announceQueue := { queue := [0], inFlight := [], removed := [] },
    torrentControls := [(3, { Dispatcher := d3, Errors := [1, 2], Complete := false })],
    nextDispatcherID := 1 }

/-- A scheduler seeding torrent 3 (control already complete). -/
def sDone : Scheduler :=
  { s3 with torrentControls := [(3, { Dispatcher := d3, Errors := [], Complete := true })] }

/-- A dispatcher for the torrent with info hash 5. -/
def d5 : Dispatcher :=
  { id := 2, Torrent := { InfoHash := 5 }, CreatedAt := 0,
    LastConnRemoved := 0, Empty := false }

/-- A scheduler whose torrent 5 has no connection capacity left. -/
def sCap : Scheduler :=
  { peerID := 0, config := cfg0, clockNow := 0,
    connState := { csEmpty with capacity := [(5, 0)] },
    announceQueue := { queue := [], inFlight := [2], removed := [] },
    torrentControls := [(5, { Dispatcher := d5, Errors := [], Complete := false })],
    nextDispatcherID := 3 }

/-- A scheduler (peer id 10) with free capacity on torrent 5. -/
def sY : Scheduler :=
  { peerID := 10, config := cfg0, clockNow := 0,
    connState := { csEmpty with capacity := [(5, 2)] },
    announceQueue := { queue := [], inFlight := [2], removed := [] },
    torrentControls := [(5, { Dispatcher := d5, Errors := [], Complete := false })],
    nextDispatcherID := 3 }

/-- Peer infos used by the concrete witnesses. -/
def pA : PeerInfo := { PeerID := some 7, IP := 1, Port := 2 }

/-- A second admissible peer. -/
def pB : PeerInfo := { PeerID := some 8, IP := 3, Port := 4 }

/-- A peer echoing the own peer id of `sY`. -/
def pSelf : PeerInfo := { PeerID := some 10, IP := 0, Port := 0 }

/-- The connection state reached after `sY` admits peer 7 on torrent 5. -/
def csY2 : ConnState :=
  { pending := [(7, 5)], active := [], blacklist := [], capacity := [(5, 1)] }

/-- An active conn used by the closed-conn witness. -/
def c0 : Conn :=
  { PeerID := 1, InfoHash := 5, CreatedAt := 0, LastGoodPieceReceived := 0,
    LastPieceSent := 0 }

/-- A scheduler with `c0` active. -/
def sC8 : Scheduler :=
  { peerID := 0, config := cfg0, clockNow := 0,
    connState := { pending := [], active := [c0], blacklist := [], capacity := [(5, 1)] },
    announceQueue := { queue := [], inFlight := [], removed := [] },
    torrentControls := [], nextDispatcherID := 0 }

/-- The dispatcher of a torrent (hash 5) whose control has been dropped. -/
def dAbs : Dispatcher :=
  { id := 0, Torrent := { InfoHash := 5 }, CreatedAt := 0,
    LastConnRemoved := 0, Empty := true }

theorem alookup_amodify_self {α : Type} (f : α → α) (l : List (Nat × α)) (k : Nat) :
    alookup (amodify f l k) k = (alookup l k).map f := by
  induction l with
  | nil => rfl
  | cons kv rest ih =>
    obtain ⟨k1, v⟩ := kv
    by_cases hk : k1 = k
    · subst hk
      simp [amodify, alookup]
    · simp [amodify, alookup, hk, ih]

theorem alookup_amodify_other {α : Type} (f : α → α) (l : List (Nat × α))
    (k k2 : Nat) (hne : k2 ≠ k) :
    alookup (amodify f l k) k2 = alookup l k2 := by
  induction l with
  | nil => rfl
  | cons kv rest ih =>
    obtain ⟨k1, v⟩ := kv
    by_cases hk : k1 = k
    · subst hk
      simp [amodify, alookup, Ne.symm hne]
    · simp [amodify, alookup, hk, ih]

/-- Claim C1 counterexample: with the control table empty (info hash 5
absent) and dispatcher 0 still in flight, applying an announce response for
5 leaves the scheduler, and in particular the announce queue, completely
unchanged: the queue entry is not marked ready, contrary to the claim. -/
theorem announceResponse_absent_not_ready_cex :
    alookup sAbsent.torrentControls 5 = none ∧
    sAbsent.announceQueue.inFlight = [0] ∧
    (announceResponseEvent.Apply ⟨5, [pA]⟩ sAbsent).1.announceQueue =
      { queue := [], inFlight := [0], removed := [] } ∧
    (announceResponseEvent.Apply ⟨5, [pA]⟩ sAbsent).1 = sAbsent ∧
    (announceResponseEvent.Apply ⟨5, [pA]⟩ sAbsent).2 = [] := by
  decide

/-- Claim C1 (amended): when an announce response arrives for an info hash
absent from `torrentControls`, the event returns immediately with the whole
scheduler state unchanged (the announce-queue entry is not marked ready, no
`AddPending` is attempted and no dial is spawned). -/
theorem announceResponse_absent_noop (s : Scheduler) (h : Nat)
    (peers : List PeerInfo)
    (habs : alookup s.torrentControls h = none) :
    announceResponseEvent.Apply ⟨h, peers⟩ s = (s, []) := by
  simp [announceResponseEvent.Apply, habs]

/-- Witness for the amended C1 theorem at a concrete scheduler. -/
theorem announceResponse_absent_noop_witness :
    announceResponseEvent.Apply ⟨5, [pA]⟩ sAbsent = (sAbsent, []) :=
  announceResponse_absent_noop sAbsent 5 [pA] rfl

/-- Claim C2 counterexample: applying a completed-dispatcher event to a
control with waiters [1, 2] delivers success to both, but the stored
`Errors` list afterwards is still [1, 2], not the empty list the claim
demands. -/
theorem completedDispatcher_errors_not_cleared_cex :
    (completedDispatcherEvent.Apply ⟨d3⟩ s3).2 = [1, 2] ∧
    alookup (completedDispatcherEvent.Apply ⟨d3⟩ s3).1.torrentControls 3 =
      some { Dispatcher := d3, Errors := [1, 2], Complete := true } ∧
    ¬ alookup (completedDispatcherEvent.Apply ⟨d3⟩ s3).1.torrentControls 3 =
      some { Dispatcher := d3, Errors := [], Complete := true } := by
  decide

/-- Claim C2 (amended): when a control exists for the completed dispatcher,
success is delivered to every sink in its `Errors` list and `Complete` is
set to true, but the `Errors` list itself is left unchanged (the code never
clears it); the connection state is untouched and the dispatcher is removed
from the announce queue. -/
theorem completedDispatcher_present_spec (s : Scheduler) (d : Dispatcher)
    (ctrl : TorrentControl)
    (hc : alookup s.torrentControls d.Torrent.InfoHash = some ctrl) :
    (completedDispatcherEvent.Apply ⟨d⟩ s).2 = ctrl.Errors ∧
    alookup (completedDispatcherEvent.Apply ⟨d⟩ s).1.torrentControls
        d.Torrent.InfoHash = some { ctrl with Complete := true } ∧
    (∀ h2, h2 ≠ d.Torrent.InfoHash →
      alookup (completedDispatcherEvent.Apply ⟨d⟩ s).1.torrentControls h2 =
        alookup s.torrentControls h2) ∧
    (completedDispatcherEvent.Apply ⟨d⟩ s).1.announceQueue =
      s.announceQueue.Done d.id ∧
    (completedDispatcherEvent.Apply ⟨d⟩ s).1.connState = s.connState := by
  refine ⟨?_, ?_, ?_, ?_, ?_⟩ <;>
    simp [completedDispatcherEvent.Apply, hc, alookup_amodify_self,
      alookup_amodify_other]
  intro h2 hne
  rw [alookup_amodify_other _ _ _ _ hne]

/-- Witness for the amended C2 theorem at a concrete scheduler. -/
theorem completedDispatcher_present_spec_witness :
    (completedDispatcherEvent.Apply ⟨d3⟩ s3).2 = [1, 2] ∧
    alookup (completedDispatcherEvent.Apply ⟨d3⟩ s3).1.torrentControls 3 =
      some { Dispatcher := d3, Errors := [1, 2], Complete := true } ∧
    (∀ h2, h2 ≠ (3 : Nat) →
      alookup (completedDispatcherEvent.Apply ⟨d3⟩ s3).1.torrentControls h2 =
        alookup s3.torrentControls h2) ∧
    (completedDispatcherEvent.Apply ⟨d3⟩ s3).1.announceQueue =
      s3.announceQueue.Done 0 ∧
    (completedDispatcherEvent.Apply ⟨d3⟩ s3).1.connState = s3.connState :=
  completedDispatcher_present_spec s3 d3
    { Dispatcher := d3, Errors := [1, 2], Complete := false } rfl

/-- Claim C9: a completed-dispatcher event always performs
`AnnounceQueue.Done` for the dispatcher, and when no control exists for its
info hash the event changes nothing else and signals no sink. -/
theorem completedDispatcher_always_done (s : Scheduler) (d : Dispatcher) :
    (completedDispatcherEvent.Apply ⟨d⟩ s).1.announceQueue =
      s.announceQueue.Done d.id ∧
    (alookup s.torrentControls d.Torrent.InfoHash = none →
      completedDispatcherEvent.Apply ⟨d⟩ s =
        ({ s with announceQueue := s.announceQueue.Done d.id }, [])) := by
  constructor
  · rcases hm : alookup s.torrentControls d.Torrent.InfoHash with _ | ctrl <;>
      simp [completedDispatcherEvent.Apply, hm]
  · intro habs
    simp [completedDispatcherEvent.Apply, habs]

/-- Witness for the C9 theorem at a concrete scheduler whose control table
is empty. -/
theorem completedDispatcher_always_done_witness :
    completedDispatcherEvent.Apply ⟨dAbs⟩ sAbsent =
      ({ sAbsent with announceQueue := sAbsent.announceQueue.Done 0 }, []) :=
  (completedDispatcher_always_done sAbsent dAbs).2 rfl

/-- Claim C10: a new-torrent event for an info hash whose control is already
complete resolves the sink immediately with success and leaves the entire
scheduler state (controls, queue, capacity, waiters, factory counter)
unchanged. -/
theorem newTorrent_complete_noop (s : Scheduler) (t : Torrent) (errc : Nat)
    (ctrl : TorrentControl)
    (hc : alookup s.torrentControls t.InfoHash = some ctrl)
    (hcomp : ctrl.Complete = true) :
    newTorrentEvent.Apply ⟨t, errc⟩ s = (s, [errc]) := by
  simp [newTorrentEvent.Apply, newTorrentApplyTail, hc, hcomp]

/-- Witness for the C10 theorem at a concrete seeding scheduler. -/
theorem newTorrent_complete_noop_witness :
    newTorrentEvent.Apply ⟨{ InfoHash := 3 }, 9⟩ sDone = (sDone, [9]) :=
  newTorrent_complete_noop sDone { InfoHash := 3 } 9
    { Dispatcher := d3, Errors := [], Complete := true } rfl rfl

/-- Claim C4: a new-torrent event for an absent info hash installs a fresh
control built from the dispatcher factory (no waiters, not complete), adds
its dispatcher to the announce queue and initializes capacity, after which
the incomplete control absorbs the sink (so the stored waiter list is
exactly the one sink); for a pre-existing incomplete control the sink is
appended to its waiters, and for a pre-existing complete control the sink
resolves immediately. -/
theorem newTorrent_spec (s : Scheduler) (t : Torrent) (errc : Nat) :
    (alookup s.torrentControls t.InfoHash = none →
      (newTorrentEvent.Apply ⟨t, errc⟩ s).1.torrentControls =
        (t.InfoHash, { Dispatcher := s.newDispatcher t, Errors := [errc], Complete := false }) :: s.torrentControls ∧
      (newTorrentEvent.Apply ⟨t, errc⟩ s).1.announceQueue =
        s.announceQueue.Add (s.newDispatcher t).id ∧
      (newTorrentEvent.Apply ⟨t, errc⟩ s).1.connState =
        s.connState.InitCapacity t.InfoHash s.config.MaxConnsPerTorrent ∧
      (newTorrentEvent.Apply ⟨t, errc⟩ s).2 = []) ∧
    (∀ ctrl, alookup s.torrentControls t.InfoHash = some ctrl →
      ctrl.Complete = false →
      alookup (newTorrentEvent.Apply ⟨t, errc⟩ s).1.torrentControls t.InfoHash =
        some { ctrl with Errors := ctrl.Errors ++ [errc] } ∧
      (newTorrentEvent.Apply ⟨t, errc⟩ s).2 = []) ∧
    (∀ ctrl, alookup s.torrentControls t.InfoHash = some ctrl →
      ctrl.Complete = true →
      (newTorrentEvent.Apply ⟨t, errc⟩ s).2 = [errc]) := by
  refine ⟨?_, ?_, ?_⟩
  · intro habs
    simp [newTorrentEvent.Apply, newTorrentApplyTail, newTorrentControl, habs,
      amodify]
  · intro ctrl hc hincomp
    simp [newTorrentEvent.Apply, newTorrentApplyTail, hc, hincomp,
      alookup_amodify_self]
  · intro ctrl hc hcomp
    simp [newTorrentEvent.Apply, newTorrentApplyTail, hc, hcomp]

/-- Witness for the C4 theorem: submitting torrent 5 to a scheduler that
does not know it yet. -/
theorem newTorrent_spec_witness :
    (newTorrentEvent.Apply ⟨{ InfoHash := 5 }, 9⟩ sAbsent).1.torrentControls =
      (5, { Dispatcher := sAbsent.newDispatcher { InfoHash := 5 }, Errors := [9], Complete := false }) :: sAbsent.torrentControls ∧
    (newTorrentEvent.Apply ⟨{ InfoHash := 5 }, 9⟩ sAbsent).1.announceQueue =
      sAbsent.announceQueue.Add (sAbsent.newDispatcher { InfoHash := 5 }).id ∧
    (newTorrentEvent.Apply ⟨{ InfoHash := 5 }, 9⟩ sAbsent).1.connState =
      sAbsent.connState.InitCapacity 5 sAbsent.config.MaxConnsPerTorrent ∧
    (newTorrentEvent.Apply ⟨{ InfoHash := 5 }, 9⟩ sAbsent).2 = [] :=
  (newTorrent_spec sAbsent { InfoHash := 5 } 9).1 rfl

theorem ConnState.Blacklist_ok (cs : ConnState) (pid h : Nat) (now dur : Int)
    (cs2 : ConnState)
    (hok : cs.Blacklist pid h now dur = .ok cs2) :
    cs2.pending = cs.pending ∧ cs2.active = cs.active ∧
    cs2.capacity = cs.capacity ∧
    ((pid, h), now + dur) ∈ cs2.blacklist := by
  unfold ConnState.Blacklist at hok
  split at hok
  · exact absurd hok (by simp)
  · simp only [Except.ok.injEq] at hok
    subst hok
    simp

/-- Claim C8: a closed-conn event removes the conn from the active set and
then blacklists its pair; everything outside the connection state is left
untouched, a blacklist error only sets the logged flag without any further
state change, and on success the refreshed blacklist entry is present. -/
theorem closedConn_spec (s : Scheduler) (c : Conn)
    (hdup : c ∉ s.connState.active.erase c) :
    c ∉ (closedConnEvent.Apply ⟨c⟩ s).1.connState.active ∧
    (closedConnEvent.Apply ⟨c⟩ s).1.announceQueue = s.announceQueue ∧
    (closedConnEvent.Apply ⟨c⟩ s).1.torrentControls = s.torrentControls ∧
    (closedConnEvent.Apply ⟨c⟩ s).1.peerID = s.peerID ∧
    (closedConnEvent.Apply ⟨c⟩ s).1.config = s.config ∧
    (closedConnEvent.Apply ⟨c⟩ s).1.clockNow = s.clockNow ∧
    (closedConnEvent.Apply ⟨c⟩ s).1.nextDispatcherID = s.nextDispatcherID ∧
    (∀ u, (s.connState.DeleteActive c).Blacklist c.PeerID c.InfoHash s.clockNow
        s.config.BlacklistDuration = .error u →
      (closedConnEvent.Apply ⟨c⟩ s).1.connState = s.connState.DeleteActive c ∧
      (closedConnEvent.Apply ⟨c⟩ s).2 = true) ∧
    (∀ cs2, (s.connState.DeleteActive c).Blacklist c.PeerID c.InfoHash s.clockNow
        s.config.BlacklistDuration = .ok cs2 →
      (closedConnEvent.Apply ⟨c⟩ s).1.connState = cs2 ∧
      (closedConnEvent.Apply ⟨c⟩ s).2 = false ∧
      ((c.PeerID, c.InfoHash), s.clockNow + s.config.BlacklistDuration) ∈ cs2.blacklist) := by
  have hact : c ∉ (s.connState.DeleteActive c).active := by
    unfold ConnState.DeleteActive
    split
    · simpa using hdup
    · next hmem => simpa using hmem
  cases hm : (s.connState.DeleteActive c).Blacklist c.PeerID c.InfoHash s.clockNow
      s.config.BlacklistDuration with
  | error u =>
    refine ⟨?_, ?_, ?_, ?_, ?_, ?_, ?_, ?_, ?_⟩
    · simpa [closedConnEvent.Apply, hm] using hact
    · simp [closedConnEvent.Apply, hm]
    · simp [closedConnEvent.Apply, hm]
    · simp [closedConnEvent.Apply, hm]
    · simp [closedConnEvent.Apply, hm]
    · simp [closedConnEvent.Apply, hm]
    · simp [closedConnEvent.Apply, hm]
    · intro u2 _
      simp [closedConnEvent.Apply, hm]
    · intro cs2 hok
      exact absurd hok (by simp)
  | ok cs2 =>
    obtain ⟨hp2, ha2, hcap2, hb2⟩ := ConnState.Blacklist_ok _ _ _ _ _ _ hm
    refine ⟨?_, ?_, ?_, ?_, ?_, ?_, ?_, ?_, ?_⟩
    · rw [show (closedConnEvent.Apply ⟨c⟩ s).1.connState = cs2 by
        simp [closedConnEvent.Apply, hm], ha2]
      exact hact
    · simp [closedConnEvent.Apply, hm]
    · simp [closedConnEvent.Apply, hm]
    · simp [closedConnEvent.Apply, hm]
    · simp [closedConnEvent.Apply, hm]
    · simp [closedConnEvent.Apply, hm]
    · simp [closedConnEvent.Apply, hm]
    · intro u hok
      exact absurd hok (by simp)
    · intro cs2m hok
      simp only [Except.ok.injEq] at hok
      subst hok
      exact ⟨by simp [closedConnEvent.Apply, hm], by simp [closedConnEvent.Apply, hm], hb2⟩

/-- Witness for the C8 theorem: closing the single active conn `c0`. -/
theorem closedConn_spec_witness :
    c0 ∉ (closedConnEvent.Apply ⟨c0⟩ sC8).1.connState.active :=
  (closedConn_spec sC8 c0 (by decide)).1

/-- Claim C3: in the announce-response peer loop, a peer whose admission
returns `atCapacity` ends the iteration with no effect from it or any later
peer; a peer whose admission fails with any other error is skipped and the
loop continues unchanged; a peer admitted successfully contributes exactly
one spawned outgoing dial and the loop continues in the updated state. -/
theorem announceResponse_addPending_cases (s : Scheduler) (h : Nat)
    (d : Dispatcher) (p : PeerInfo) (rest : List PeerInfo) (pid : Nat)
    (hp : p.PeerID = some pid) (hself : pid ≠ s.peerID) :
    (s.connState.AddPending pid h s.clockNow = .error .atCapacity →
      ∀ post, announceResponsePeerLoop s h d (p :: post) = (s, [])) ∧
    (∀ err, err ≠ AddPendingErr.atCapacity →
      s.connState.AddPending pid h s.clockNow = .error err →
      announceResponsePeerLoop s h d (p :: rest) =
        announceResponsePeerLoop s h d rest) ∧
    (∀ cs, s.connState.AddPending pid h s.clockNow = .ok cs →
      announceResponsePeerLoop s h d (p :: rest) =
        ((announceResponsePeerLoop { s with connState := cs } h d rest).1,
          { peerID := pid, ip := p.IP, port := p.Port, torrent := d.Torrent } ::
            (announceResponsePeerLoop { s with connState := cs } h d rest).2)) := by
  refine ⟨?_, ?_, ?_⟩
  · intro hcap post
    simp [announceResponsePeerLoop, hp, hself, hcap]
  · intro err hne herr
    cases err with
    | atCapacity => exact absurd rfl hne
    | alreadyPending => simp [announceResponsePeerLoop, hp, hself, herr]
    | alreadyActive => simp [announceResponsePeerLoop, hp, hself, herr]
    | blacklisted => simp [announceResponsePeerLoop, hp, hself, herr]
  · intro cs hok
    simp [announceResponsePeerLoop, hp, hself, hok]

/-- Witness for the C3 theorem: with torrent 5 at capacity, the loop stops
at the first admissible peer and attempts nothing for the rest. -/
theorem announceResponse_addPending_cases_witness :
    announceResponsePeerLoop sCap 5 d5 [pA, pB] = (sCap, []) :=
  (announceResponse_addPending_cases sCap 5 d5 pA [pB] 7 rfl (by decide)).1 rfl [pB]

/-- Claim C7: an announce-response peer entry carrying our own peer id is
skipped without an admission attempt, so for the list [self, Y] with Y
admissible exactly one outgoing dial is spawned, for Y. -/
theorem announceResponse_self_skip (s : Scheduler) (h : Nat)
    (ctrl : TorrentControl) (pX pY : PeerInfo) (pidY : Nat) (cs : ConnState)
    (hc : alookup s.torrentControls h = some ctrl)
    (hx : pX.PeerID = some s.peerID)
    (hy : pY.PeerID = some pidY)
    (hyne : pidY ≠ s.peerID)
    (hadd : s.connState.AddPending pidY h s.clockNow = .ok cs) :
    (announceResponseEvent.Apply ⟨h, [pX, pY]⟩ s).2 =
      [{ peerID := pidY, ip := pY.IP, port := pY.Port, torrent := ctrl.Dispatcher.Torrent }] := by
  simp [announceResponseEvent.Apply, announceResponsePeerLoop, hc, hx, hy, hyne, hadd]

/-- Witness for the C7 theorem: scheduler `sY` (peer id 10) receives
[self, peer 7] and dials only peer 7. -/
theorem announceResponse_self_skip_witness :
    (announceResponseEvent.Apply ⟨5, [pSelf, pA]⟩ sY).2 =
      [{ peerID := 7, ip := pA.IP, port := pA.Port, torrent := d5.Torrent }] :=
  announceResponse_self_skip sY 5 { Dispatcher := d5, Errors := [], Complete := false }
    pSelf pA 7 csY2 rfl rfl rfl (by decide) rfl

theorem preemptConns_eq_filter (s : Scheduler) (l : List Conn) :
    preemptConns s l = l.filter (fun c =>
      decide (s.clockNow - MostRecent3 c.CreatedAt c.LastGoodPieceReceived c.LastPieceSent > s.config.IdleConnTTL) ||
      decide (s.clockNow - c.CreatedAt > s.config.ConnTTL)) := by
  induction l with
  | nil => rfl
  | cons a rest ih =>
    by_cases h1 : s.clockNow - MostRecent3 a.CreatedAt a.LastGoodPieceReceived a.LastPieceSent > s.config.IdleConnTTL
    · simp [preemptConns, h1, ih, List.filter_cons]
    · by_cases h2 : s.clockNow - a.CreatedAt > s.config.ConnTTL
      · simp [preemptConns, h1, h2, ih, List.filter_cons]
      · simp [preemptConns, h1, h2, ih, List.filter_cons]

/-- Claim C5: a preemption tick closes exactly the active conns that are
idle past `IdleConnTTL` or, failing that, older than `ConnTTL`; every other
active conn is left alone. -/
theorem preemptionTick_closes_iff (s : Scheduler) (c : Conn) :
    c ∈ (preemptionTickEvent.Apply ⟨⟩ s).2 ↔
      c ∈ s.connState.ActiveConns ∧
        (s.clockNow - MostRecent3 c.CreatedAt c.LastGoodPieceReceived c.LastPieceSent > s.config.IdleConnTTL ∨
          (¬ s.clockNow - MostRecent3 c.CreatedAt c.LastGoodPieceReceived c.LastPieceSent > s.config.IdleConnTTL ∧
            s.clockNow - c.CreatedAt > s.config.ConnTTL)) := by
  simp only [preemptionTickEvent.Apply, preemptConns_eq_filter, List.mem_filter,
    Bool.or_eq_true, decide_eq_true_eq]
  tauto

theorem preemptControls_eq_filter (s : Scheduler) (l : List (Nat × TorrentControl)) :
    preemptControls s l = l.filter (fun kv =>
      !(kv.2.Complete && kv.2.Dispatcher.Empty &&
        decide (s.clockNow - MostRecent2 kv.2.Dispatcher.CreatedAt kv.2.Dispatcher.LastConnRemoved > s.config.IdleSeederTTL))) := by
  induction l with
  | nil => rfl
  | cons kv rest ih =>
    obtain ⟨h1, ctrl⟩ := kv
    cases hcomp : ctrl.Complete with
    | false => simp [preemptControls, hcomp, ih, List.filter_cons]
    | true =>
      cases hemp : ctrl.Dispatcher.Empty with
      | false => simp [preemptControls, hcomp, hemp, ih, List.filter_cons]
      | true =>
        by_cases httl : s.clockNow - MostRecent2 ctrl.Dispatcher.CreatedAt ctrl.Dispatcher.LastConnRemoved > s.config.IdleSeederTTL
        · simp [preemptControls, hcomp, hemp, httl, ih, List.filter_cons]
        · simp [preemptControls, hcomp, hemp, httl, ih, List.filter_cons]

/-- Claim C6: a preemption tick drops a torrent control exactly when it is
complete, its dispatcher is empty, and the time since the dispatcher became
idle exceeds `IdleSeederTTL`; every other control stays in the table. -/
theorem preemptionTick_controls_iff (s : Scheduler) (h : Nat)
    (ctrl : TorrentControl) :
    (h, ctrl) ∈ (preemptionTickEvent.Apply ⟨⟩ s).1.torrentControls ↔
      ((h, ctrl) ∈ s.torrentControls ∧
        ¬ (ctrl.Complete = true ∧ ctrl.Dispatcher.Empty = true ∧
          s.clockNow - MostRecent2 ctrl.Dispatcher.CreatedAt ctrl.Dispatcher.LastConnRemoved > s.config.IdleSeederTTL)) := by
  simp only [preemptionTickEvent.Apply, preemptControls_eq_filter, List.mem_filter]
  cases hcomp : ctrl.Complete with
  | false => simp [hcomp]
  | true =>
    cases hemp : ctrl.Dispatcher.Empty with
    | false => simp [hcomp, hemp]
    | true =>
      by_cases httl : s.clockNow - MostRecent2 ctrl.Dispatcher.CreatedAt ctrl.Dispatcher.LastConnRemoved > s.config.IdleSeederTTL
      · simp [hcomp, hemp, httl]
      · simp [hcomp, hemp, httl]
